import Mathlib

set_option maxRecDepth 40000

/-!
Shallow embedding of `stemtool/util/pnccd.py`: the `Frms6Reader` class
(frms6 binary reader) and the module-level container readers `readData`
and `getDataSize`.

Files are modelled as lists of byte values; the native byte order of the
format is modelled as little-endian.  Python's `struct` formats are
modelled by explicit field lists under the `=` prefix (standard sizes, no
alignment padding).  Fallible operations return `Except ReadError`.
-/

deriving instance DecidableEq for Except

namespace PnCCD

/-- One field of a Python `struct` format string under the `=` prefix
(standard sizes, no alignment padding). -/
inductive StructField
  | u8 | u16 | u32 | u64 | i16 | f64
  | chars (n : Nat)
  | pad (n : Nat)
  deriving DecidableEq, Repr

/-- Standard size in bytes of one `struct` field (`B`=1, `H`=2, `I`=4,
`Q`=8, `h`=2, `d`=8, `ns`=n, `nx`=n). -/
def StructField.size : StructField → Nat
  | .u8 => 1
  | .u16 => 2
  | .u32 => 4
  | .u64 => 8
  | .i16 => 2
  | .f64 => 8
  | .chars n => n
  | .pad n => n

/-- Model of `struct.calcsize` for a format without alignment padding:
the sum of the standard field sizes. -/
def calcsize (fields : List StructField) : Nat :=
  (fields.map StructField.size).sum

/-- A file's contents, as the list of its byte values. -/
abbrev Bytes := List Nat

/-- Little-endian 16-bit read at byte offset `off` (native order of the
producing hosts modelled as little-endian). -/
def u16le (b : Bytes) (off : Nat) : Nat :=
  b.getD off 0 + 256 * b.getD (off + 1) 0

/-- Little-endian 32-bit read at byte offset `off`. -/
def u32le (b : Bytes) (off : Nat) : Nat :=
  u16le b off + 65536 * u16le b (off + 2)

/-- Little-endian 64-bit read at byte offset `off`. -/
def u64le (b : Bytes) (off : Nat) : Nat :=
  u32le b off + 4294967296 * u32le b (off + 4)

/-- `bytes.rstrip(b'\x00')`: strip trailing zero bytes. -/
def rstripZero (l : Bytes) : Bytes :=
  (l.reverse.dropWhile (fun b => b == 0)).reverse

/-- Typed failures of the reader, naming both the spec's error taxonomy
and the concrete Python exceptions they stand for. -/
inductive ReadError
  /-- `struct.error`: fewer bytes than a fixed header needs. -/
  | malformedHeader
  /-- the `raise Warning(...)` in `getDataShape`: frame count not integer. -/
  | corruptFile
  /-- `ValueError` from `np.zeros` on a negative dimension. -/
  | negativeDimensions
  /-- `OSError` from `fh.seek` on a negative offset. -/
  | negativeSeek
  /-- short read of a frame payload or frame header mid-scan. -/
  | truncatedFrame
  deriving DecidableEq, Repr

namespace Frms6Reader

/-- `fileHeaderFormat = '=HHBBBB80sHH932x'`. -/
def fileHeaderFormat : List StructField :=
  [.u16, .u16, .u8, .u8, .u8, .u8, .chars 80, .u16, .u16, .pad 932]

/-- `fileHeaderSizeInBytes = struct.calcsize(fileHeaderFormat)`. -/
def fileHeaderSizeInBytes : Nat := calcsize fileHeaderFormat

/-- `frameHeaderFormat = '=BBBBIIIdHHIQ24x'`. -/
def frameHeaderFormat : List StructField :=
  [.u8, .u8, .u8, .u8, .u32, .u32, .u32, .f64, .u16, .u16, .u32, .u64, .pad 24]

/-- `frameHeaderSizeInBytes = struct.calcsize(frameHeaderFormat)`. -/
def frameHeaderSizeInBytes : Nat := calcsize frameHeaderFormat

/-- `getFrameSizeInBytes(frameWidth, frameHeight)` returns
`struct.calcsize(str(frameWidth * frameHeight) + 'h')`, i.e. the packed
size of `frameWidth * frameHeight` consecutive shorts. -/
def getFrameSizeInBytes (frameWidth frameHeight : Nat) : Nat :=
  calcsize (List.replicate (frameWidth * frameHeight) .i16)

/-- Decoded file header (`fileHeaderStruct.unpack` collected by
`getFileHeader` into its ordered dictionary). -/
structure FileHeader where
  fileHeaderSize : Nat
  frameHeaderSize : Nat
  nCCDs : Nat
  maxWidth : Nat
  maxHeight : Nat
  version : Nat
  dataSetId : Bytes
  width : Nat
  height : Nat
  deriving DecidableEq, Repr

/-- Unpack the 1024-byte file header: field offsets follow
`fileHeaderFormat` packed without padding (0, 2, 4, 5, 6, 7, 8, 88, 90);
the dataset id is stripped of trailing zero bytes as in `getFileHeader`. -/
def decodeFileHeader (b : Bytes) : FileHeader :=
  { fileHeaderSize := u16le b 0
    frameHeaderSize := u16le b 2
    nCCDs := b.getD 4 0
    maxWidth := b.getD 5 0
    maxHeight := b.getD 6 0
    version := b.getD 7 0
    dataSetId := rstripZero ((b.drop 8).take 80)
    width := u16le b 88
    height := u16le b 90 }

/-- `getFileHeader`: read the first 1024 bytes and unpack them.
`struct.unpack` raises when the file is shorter than the header. -/
def getFileHeader (file : Bytes) : Except ReadError FileHeader :=
  if fileHeaderSizeInBytes ≤ file.length then
    .ok (decodeFileHeader (file.take fileHeaderSizeInBytes))
  else
    .error .malformedHeader

/-- `getDataShape`: decode the file header, take its true width/height,
and compute `(fileSize - fileHeaderSizeInBytes) / frameAndHeaderSizeInBytes`.
The Python code divides with `/` and raises when
`float(numberOfFrames).is_integer()` is false; this exact-divisibility
check is modelled with `%` on naturals. -/
def getDataShape (file : Bytes) : Except ReadError (Nat × Nat × Nat) := do
  let fileHeader ← getFileHeader file
  let frameWidth := fileHeader.width
  let frameHeight := fileHeader.height
  let frameAndHeaderSizeInBytes :=
    frameHeaderSizeInBytes + getFrameSizeInBytes frameWidth frameHeight
  let fileSize := file.length
  if (fileSize - fileHeaderSizeInBytes) % frameAndHeaderSizeInBytes ≠ 0 then
    .error .corruptFile
  else
    .ok (frameWidth, frameHeight, (fileSize - fileHeaderSizeInBytes) / frameAndHeaderSizeInBytes)

/-- Decoded frame header: the twelve items
`frameHeaderStruct.unpack` yields for `'=BBBBIIIdHHIQ24x'`.  The `temp`
field is a C `double`; it is carried as its raw 64-bit little-endian bit
pattern, which is all the claims need. -/
structure FrameHeader where
  start : Nat
  info : Nat
  id : Nat
  height : Nat
  tv_sec : Nat
  tv_usec : Nat
  index : Nat
  temp : Nat
  the_start : Nat
  the_height : Nat
  external_id : Nat
  bunch_id : Nat
  deriving DecidableEq, Repr

/-- Unpack one 64-byte frame header; offsets follow `frameHeaderFormat`
packed without padding (0,1,2,3, 4,8,12, 16, 24,26, 28, 32). -/
def decodeFrameHeader (b : Bytes) : FrameHeader :=
  { start := b.getD 0 0
    info := b.getD 1 0
    id := b.getD 2 0
    height := b.getD 3 0
    tv_sec := u32le b 4
    tv_usec := u32le b 8
    index := u32le b 12
    temp := u64le b 16
    the_start := u16le b 24
    the_height := u16le b 26
    external_id := u32le b 28
    bunch_id := u64le b 32 }

/-- `fh.read(size)` at absolute position `pos`, where the caller needs
exactly `size` bytes: a short read (position past or near the end of the
file) makes the subsequent `struct.unpack`/`np.frombuffer`-`reshape`
raise, modelled as `truncatedFrame`. -/
def readBytesExact (file : Bytes) (pos size : Nat) : Except ReadError Bytes :=
  if pos + size ≤ file.length then .ok ((file.drop pos).take size)
  else .error .truncatedFrame

/-- The scan loop of `getFrameHeaders`: at each step read one 64-byte
frame header at the current position, unpack it, then seek forward over
the frame payload (`frameSizeInBytes` bytes). -/
def readHeadersLoop (file : Bytes) (frameSizeInBytes : Nat) :
    Nat → Nat → Except ReadError (List FrameHeader)
  | _, 0 => .ok []
  | pos, n + 1 => do
    let raw ← readBytesExact file pos frameHeaderSizeInBytes
    let rest ← readHeadersLoop file frameSizeInBytes
      (pos + frameHeaderSizeInBytes + frameSizeInBytes) n
    .ok (decodeFrameHeader raw :: rest)

/-- The nine per-field lists `getFrameHeaders` returns. -/
structure FrameHeaderLists where
  start : List Nat
  info : List Nat
  id : List Nat
  height : List Nat
  tv_sec : List Nat
  tv_usec : List Nat
  index : List Nat
  temp : List Nat
  maxHeight : List Nat
  deriving DecidableEq, Repr

/-- `getFrameHeaders`: resolve the shape, then scan `numberOfFrames`
frame headers starting right after the file header, appending each
unpacked item to its field's list.  The source destructures the
`(width, height, frames)` triple of `getDataShape` as
`frameHeight, frameWidth, numberOfFrames`, swapping width and height;
only their product enters `getFrameSizeInBytes`, so the swap is kept
as-is.  The list called `maxHeight` collects unpack item 8, which is
the `the_start` field of the frame header. -/
def getFrameHeaders (file : Bytes) : Except ReadError FrameHeaderLists := do
  let shape ← getDataShape file
  let frameHeight := shape.1
  let frameWidth := shape.2.1
  let numberOfFrames := shape.2.2
  let frameSizeInBytes := getFrameSizeInBytes frameWidth frameHeight
  let hs ← readHeadersLoop file frameSizeInBytes fileHeaderSizeInBytes numberOfFrames
  .ok
    { start := hs.map (fun h => h.start)
      info := hs.map (fun h => h.info)
      id := hs.map (fun h => h.id)
      height := hs.map (fun h => h.height)
      tv_sec := hs.map (fun h => h.tv_sec)
      tv_usec := hs.map (fun h => h.tv_usec)
      index := hs.map (fun h => h.index)
      temp := hs.map (fun h => h.temp)
      maxHeight := hs.map (fun h => h.the_start) }

/-- `np.frombuffer(bytes, np.uint16)`: consecutive byte pairs as
little-endian unsigned 16-bit samples. -/
def readU16 : Bytes → List Nat
  | b0 :: b1 :: rest => (b0 + 256 * b1) :: readU16 rest
  | _ => []

/-- `flat.reshape((rows, cols))` in C order: row `r` holds the `cols`
entries starting at flat index `r * cols`. -/
def reshapeRows (rows cols : Nat) (flat : List Nat) : List (List Nat) :=
  (List.range rows).map (fun r => (flat.drop (r * cols)).take cols)

/-- `np.transpose` of a `rows × cols` matrix given as a list of rows. -/
def transposeMat (rows cols : Nat) (m : List (List Nat)) : List (List Nat) :=
  (List.range cols).map (fun c => (List.range rows).map (fun r => (m.getD r []).getD c 0))

/-- Per-frame payload decode of `readData`: interpret the payload bytes
as uint16 samples, `reshape((pixelsY, pixelsX))`, then `np.transpose`. -/
def decodeFramePayload (pixelsX pixelsY : Nat) (bytes : Bytes) : List (List Nat) :=
  transposeMat pixelsY pixelsX (reshapeRows pixelsY pixelsX (readU16 bytes))

/-- The read loop of `readData`: at each step seek `frameHeaderSizeInBytes`
forward (the header is skipped, not decoded), read `frameSizeInBytes`
payload bytes, decode them, and move to the next record. -/
def readFrames (file : Bytes) (pixelsX pixelsY frameSizeInBytes : Nat) :
    Nat → Nat → Except ReadError (List (List (List Nat)))
  | _, 0 => .ok []
  | pos, n + 1 => do
    let bytes ← readBytesExact file (pos + frameHeaderSizeInBytes) frameSizeInBytes
    let rest ← readFrames file pixelsX pixelsY frameSizeInBytes
      (pos + frameHeaderSizeInBytes + frameSizeInBytes) n
    .ok (decodeFramePayload pixelsX pixelsY bytes :: rest)

/-- The `(pixelsX, pixelsY, numberOfFrames)` uint16 chunk `readData`
returns.  The numpy array `chunk[x, y, f]` is represented with the frame
axis outermost: `frames` lists, per frame, the transposed
`pixelsX × pixelsY` matrix the loop assigns to `chunk[:, :, f]`, so a
slice of the numpy array along its third axis is `take`/`drop` on
`frames`. -/
structure Chunk where
  pixelsX : Nat
  pixelsY : Nat
  frames : List (List (List Nat))
  deriving DecidableEq, Repr

/-- `readData(fn, image_range=(startIdx, endIdx), pixels_x, pixels_y)`.
Failure order follows the source: `np.zeros` raises on a negative frame
count before the file is opened; `fh.seek` raises on a negative offset
before the loop runs; a short payload read raises inside the loop. -/
def readData (file : Bytes) (startIdx endIdx : Int) (pixelsX pixelsY : Nat) :
    Except ReadError Chunk :=
  let numberOfFrames : Int := endIdx - startIdx
  let frameSizeInBytes := getFrameSizeInBytes pixelsX pixelsY
  let offset : Int := (fileHeaderSizeInBytes : Int) +
    startIdx * ((frameHeaderSizeInBytes : Int) + (frameSizeInBytes : Int))
  if numberOfFrames < 0 then .error .negativeDimensions
  else if offset < 0 then .error .negativeSeek
  else do
    let frames ← readFrames file pixelsX pixelsY frameSizeInBytes
      offset.toNat numberOfFrames.toNat
    .ok ⟨pixelsX, pixelsY, frames⟩

end Frms6Reader

/-! Module-level container readers `readData` and `getDataSize`.

The hierarchical data container (h5py) is an external collaborator: a
container file maps a dataset path to an n-dimensional array.  Arrays
are modelled numpy-style as a dtype tag, a shape, and C-order flat data.
The stored scalar values are carried as exact integers; widening to
64-bit floating point retags the dtype, which is what the claims about
the adapter concern. -/

/-- On-disk / in-memory element type of a dataset. -/
inductive Dtype
  | uint8 | uint16 | int32 | float32 | float64 | other
  deriving DecidableEq, Repr

/-- A numpy-style array: dtype tag, shape, and flat C-order data. -/
structure NDArr where
  dtype : Dtype
  shape : List Nat
  data : List Int
  deriving DecidableEq, Repr

/-- An open container file: dataset lookup by path (`f[path]`). -/
structure H5File where
  get : List Char → NDArr

/-- Resolve one Python slice endpoint against an axis length: negative
indices count from the end, and endpoints clamp to `[0, len]`. -/
def pySliceIndex (len : Nat) (i : Int) : Nat :=
  if i < 0 then (len + i).toNat else min i.toNat len

/-- Python slicing `l[a:b]`. -/
def pySlice {α : Type} (l : List α) (a b : Int) : List α :=
  (l.take (pySliceIndex l.length b)).drop (pySliceIndex l.length a)

/-- Split a flat list into consecutive chunks of `n` elements (the rows
of a C-order axis of length `n`). -/
def chunksOf {α : Type} : Nat → List α → List (List α)
  | _, [] => []
  | 0, _ :: _ => []
  | n + 1, l@(_ :: _) => l.take (n + 1) :: chunksOf (n + 1) (l.drop (n + 1))
termination_by _ l => l.length
decreasing_by simp_all [List.length_drop]; omega

/-- `a[:, :, lo:hi]` on a rank-3 array: slice the last axis. -/
def sliceLastAxis (a : NDArr) (lo hi : Int) : NDArr :=
  match a.shape with
  | [s0, s1, s2] =>
    let n2 := (pySlice (List.range s2) lo hi).length
    ⟨a.dtype, [s0, s1, n2], ((chunksOf s2 a.data).map (fun r => pySlice r lo hi)).flatten⟩
  | _ => a

/-- `a[lo:hi, :, :]` on a rank-3 array: slice the first axis. -/
def sliceFirstAxis (a : NDArr) (lo hi : Int) : NDArr :=
  match a.shape with
  | [_s0, s1, s2] =>
    let rows := pySlice (chunksOf (s1 * s2) a.data) lo hi
    ⟨a.dtype, [rows.length, s1, s2], rows.flatten⟩
  | _ => a

/-- `a[x0:x1, y0:y1, :]` on a rank-3 array. -/
def sliceXYAxes (a : NDArr) (x0 x1 y0 y1 : Int) : NDArr :=
  match a.shape with
  | [_s0, s1, s2] =>
    let rows := pySlice (chunksOf (s1 * s2) a.data) x0 x1
    let nx := rows.length
    let ny := (pySlice (List.range s1) y0 y1).length
    ⟨a.dtype, [nx, ny, s2],
      (rows.map (fun r => ((pySlice (chunksOf s2 r) y0 y1)).flatten)).flatten⟩
  | _ => a

/-- `np.squeeze`: drop the axes of length 1; C-contiguous data is
unchanged. -/
def npSqueeze (a : NDArr) : NDArr :=
  ⟨a.dtype, a.shape.filter (fun s => s ≠ 1), a.data⟩

/-- Element `a[i, j, k]` of a rank-3 C-order array (0 outside bounds). -/
def at3 (s1 s2 : Nat) (d : List Int) (i j k : Nat) : Int :=
  d.getD ((i * s1 + j) * s2 + k) 0

/-- `np.rollaxis(a, 2)` on a rank-3 array: the new `[k, i, j]` entry is
the old `[i, j, k]` entry. -/
def rollaxis2 (a : NDArr) : NDArr :=
  match a.shape with
  | [s0, s1, s2] =>
    ⟨a.dtype, [s2, s0, s1],
      (List.range s2).flatMap (fun k => (List.range s0).flatMap (fun i =>
        (List.range s1).map (fun j => at3 s1 s2 a.data i j k)))⟩
  | _ => a

/-- `np.rollaxis(a, 1)` on a rank-3 array: the new `[j, i, k]` entry is
the old `[i, j, k]` entry. -/
def rollaxis1 (a : NDArr) : NDArr :=
  match a.shape with
  | [s0, s1, s2] =>
    ⟨a.dtype, [s1, s0, s2],
      (List.range s1).flatMap (fun j => (List.range s0).flatMap (fun i =>
        (List.range s2).map (fun k => at3 s1 s2 a.data i j k)))⟩
  | _ => a

/-- `np.ascontiguousarray`: identity on the model (data is materialized
in C order already). -/
def npAscontiguousarray (a : NDArr) : NDArr := a

/-- `np.asarray(d, np.float64)`: retag the dtype as 64-bit floating
point.  The modelled values, exact integers, are unchanged; the claims
about this adapter concern the dtype. -/
def npAsFloat64 (a : NDArr) : NDArr :=
  ⟨.float64, a.shape, a.data⟩

/-- The literal `"00000"` the container readers look for in a filename. -/
def zeros5 : List Char := ['0', '0', '0', '0', '0']

/-- The part-index placeholder `"%05d"` substituted for it. -/
def pct05d : List Char := ['%', '0', '5', 'd']

/-- Boolean prefix test on character lists. -/
def isPrefixCh : List Char → List Char → Bool
  | [], _ => true
  | _ :: _, [] => false
  | a :: as, b :: bs => a == b && isPrefixCh as bs

/-- `filename.find("00000") != -1`: does the literal occur anywhere in
the string? -/
def containsZeros5 : List Char → Bool
  | [] => false
  | l@(_ :: t) => isPrefixCh zeros5 l || containsZeros5 t

/-- `filename.replace("00000", "%05d")`: left-to-right scan substituting
`"%05d"` for each non-overlapping occurrence of `"00000"`. -/
def pyReplace00000 : List Char → List Char
  | [] => []
  | l@(c :: t) =>
    if isPrefixCh zeros5 l then pct05d ++ pyReplace00000 (l.drop 5)
    else c :: pyReplace00000 t
termination_by l => l.length
decreasing_by all_goals (simp_all [List.length_drop] <;> omega)

/-- Python exceptions of the module-level readers the claims reach. -/
inductive PyError
  /-- `None[0]` when only one of `x_range`/`y_range` is supplied. -/
  | typeError
  deriving DecidableEq, Repr

/-- Module-level `readData(filename, path, image_range, x_range, y_range,
pixels_x, pixels_y, simulated)`.  `files` models the filesystem seen by
`h5py.File`: the container opened under a given name.  The `pixels_x` /
`pixels_y` keyword arguments are read but never used by the source, so
they are omitted here. -/
def readDataContainer (files : List Char → H5File) (filename path : List Char)
    (imageRange : Option (Int × Int)) (xRange yRange : Option (Int × Int))
    (simulated : Bool) : Except PyError NDArr :=
  let f := if containsZeros5 filename then files (pyReplace00000 filename)
           else files filename
  let din := match imageRange with
    | none => f.get path
    | some (lo, hi) =>
      if ¬ simulated then sliceLastAxis (f.get path) lo hi
      else sliceFirstAxis (f.get path) lo hi
  let din := if simulated then
      npAscontiguousarray (rollaxis1 (rollaxis2 (rollaxis2 (npSqueeze din))))
    else din
  match xRange, yRange with
  | none, none => .ok (npAsFloat64 din)
  | some (x0, x1), some (y0, y1) => .ok (npAsFloat64 (sliceXYAxes din x0 x1 y0 y1))
  | _, _ => .error .typeError

/-- Module-level `getDataSize(filename, path)`: open the container (family
driver when the filename contains `"00000"`) and return `f[path].shape`. -/
def getDataSize (files : List Char → H5File) (filename path : List Char) : List Nat :=
  let f := if containsZeros5 filename then files (pyReplace00000 filename)
           else files filename
  (f.get path).shape

/-! Well-formedness of frms6 files, and concrete example files. -/

/-- A frms6 file with `n` frames of caller geometry `px × py`: the file
layout invariant `fileSize = fileHeaderSize + n * (frameHeaderSize +
px*py*2)`. -/
def wellFormedFrms6 (file : Bytes) (px py n : Nat) : Prop :=
  file.length = Frms6Reader.fileHeaderSizeInBytes +
    n * (Frms6Reader.frameHeaderSizeInBytes + Frms6Reader.getFrameSizeInBytes px py)

instance (file : Bytes) (px py n : Nat) : Decidable (wellFormedFrms6 file px py n) := by
  unfold wellFormedFrms6; infer_instance

/-- The file header declares true width `px` and true height `py`. -/
def headerDeclares (file : Bytes) (px py : Nat) : Prop :=
  (Frms6Reader.decodeFileHeader (file.take Frms6Reader.fileHeaderSizeInBytes)).width = px ∧
  (Frms6Reader.decodeFileHeader (file.take Frms6Reader.fileHeaderSizeInBytes)).height = py

instance (file : Bytes) (px py : Nat) : Decidable (headerDeclares file px py) := by
  unfold headerDeclares; infer_instance

/-- Record size `getDataShape` divides by, as computed from a file's own
header: frame header size plus payload size for the declared geometry. -/
def recordSizeOf (file : Bytes) : Nat :=
  Frms6Reader.frameHeaderSizeInBytes +
    Frms6Reader.getFrameSizeInBytes
      (Frms6Reader.decodeFileHeader (file.take Frms6Reader.fileHeaderSizeInBytes)).width
      (Frms6Reader.decodeFileHeader (file.take Frms6Reader.fileHeaderSizeInBytes)).height

/-- The payload bytes of frame `k` for caller geometry `px × py`: the
`px*py*2` bytes following the `k`-th frame header. -/
def payloadBytesAt (file : Bytes) (px py k : Nat) : Bytes :=
  (file.drop (Frms6Reader.fileHeaderSizeInBytes +
      k * (Frms6Reader.frameHeaderSizeInBytes + Frms6Reader.getFrameSizeInBytes px py) +
      Frms6Reader.frameHeaderSizeInBytes)).take (Frms6Reader.getFrameSizeInBytes px py)

/-- The 64 header bytes of frame `k` for caller geometry `px × py`. -/
def headerBytesAt (file : Bytes) (px py k : Nat) : Bytes :=
  (file.drop (Frms6Reader.fileHeaderSizeInBytes +
      k * (Frms6Reader.frameHeaderSizeInBytes + Frms6Reader.getFrameSizeInBytes px py))).take
    Frms6Reader.frameHeaderSizeInBytes

/-- The spec's round-trip example: an all-zero file header, then two
2×2 frames with raw little-endian uint16 payloads `[1,2,3,4]` and
`[5,6,7,8]`. -/
def exampleFile2x2 : Bytes :=
  List.replicate 1024 0 ++
    (List.replicate 64 0 ++ [1, 0, 2, 0, 3, 0, 4, 0]) ++
    (List.replicate 64 0 ++ [5, 0, 6, 0, 7, 0, 8, 0])

/-- A valid one-frame file of geometry 1×1: header declaring width 1 and
height 1 (bytes 88 and 90), one zero frame record of 66 bytes. -/
def exampleFile1x1 : Bytes :=
  List.replicate 88 0 ++ [1, 0, 1, 0] ++ List.replicate 932 0 ++ List.replicate 66 0

/-! Helper lemmas. -/

lemma fileHeaderSize_val : Frms6Reader.fileHeaderSizeInBytes = 1024 := rfl

lemma frameHeaderSize_val : Frms6Reader.frameHeaderSizeInBytes = 64 := rfl

lemma getFrameSize_val (w h : Nat) : Frms6Reader.getFrameSizeInBytes w h = w * h * 2 := by
  unfold Frms6Reader.getFrameSizeInBytes calcsize
  simp [List.map_replicate, StructField.size, List.sum_const_nat]

lemma readBytesExact_ok (file : Bytes) (pos size : Nat) (h : pos + size ≤ file.length) :
    Frms6Reader.readBytesExact file pos size = .ok ((file.drop pos).take size) := by
  unfold Frms6Reader.readBytesExact
  rw [if_pos h]

/-- Characterization of the payload-read loop on a file long enough for
`n` whole records starting at `pos`: it succeeds and its `k`-th frame is
the decode of the payload bytes of the `k`-th record. -/
lemma readFrames_spec (file : Bytes) (px py : Nat) :
    ∀ (n pos : Nat),
      pos + n * (Frms6Reader.frameHeaderSizeInBytes + Frms6Reader.getFrameSizeInBytes px py)
        ≤ file.length →
      ∃ L, Frms6Reader.readFrames file px py (Frms6Reader.getFrameSizeInBytes px py) pos n
          = .ok L ∧ L.length = n ∧
        ∀ k, k < n → L.getD k [] = Frms6Reader.decodeFramePayload px py
          ((file.drop (pos + k * (Frms6Reader.frameHeaderSizeInBytes +
              Frms6Reader.getFrameSizeInBytes px py) +
              Frms6Reader.frameHeaderSizeInBytes)).take
            (Frms6Reader.getFrameSizeInBytes px py)) := by
  intro n
  induction n with
  | zero =>
    intro pos _
    exact ⟨[], rfl, rfl, fun k hk => absurd hk (by omega)⟩
  | succ n ih =>
    intro pos h
    set fs := Frms6Reader.getFrameSizeInBytes px py with hfs
    set fh := Frms6Reader.frameHeaderSizeInBytes with hfh
    have hsucc : (n + 1) * (fh + fs) = n * (fh + fs) + (fh + fs) := Nat.succ_mul n (fh + fs)
    have hone : pos + fh + fs ≤ file.length := by
      have := Nat.le_add_left (fh + fs) (n * (fh + fs))
      omega
    have hrest : (pos + fh + fs) + n * (fh + fs) ≤ file.length := by omega
    obtain ⟨L, hL, hlen, hk⟩ := ih (pos + fh + fs) hrest
    refine ⟨Frms6Reader.decodeFramePayload px py ((file.drop (pos + fh)).take fs) :: L, ?_, ?_, ?_⟩
    · rw [Frms6Reader.readFrames]
      rw [readBytesExact_ok file (pos + fh) fs (by omega), hL]
      rfl
    · simp [hlen]
    · intro k hkn
      match k with
      | 0 =>
        simp
      | k + 1 =>
        have hk' := hk k (by omega)
        simp only [List.getD_cons_succ]
        rw [hk']
        congr 2
        ring_nf

/-- Characterization of `readData` on the in-bounds range
`[a, a + n)`: it succeeds, and its `k`-th frame is the decode of the
payload of record `a + k`. -/
lemma readData_spec (file : Bytes) (px py a n : Nat)
    (h : Frms6Reader.fileHeaderSizeInBytes +
      (a + n) * (Frms6Reader.frameHeaderSizeInBytes + Frms6Reader.getFrameSizeInBytes px py)
      ≤ file.length) :
    ∃ L, Frms6Reader.readData file (a : Int) ((a + n : Nat) : Int) px py
        = .ok ⟨px, py, L⟩ ∧ L.length = n ∧
      ∀ k, k < n → L.getD k [] =
        Frms6Reader.decodeFramePayload px py (payloadBytesAt file px py (a + k)) := by
  set fs := Frms6Reader.getFrameSizeInBytes px py with hfs
  set fh := Frms6Reader.frameHeaderSizeInBytes with hfh
  set fhd := Frms6Reader.fileHeaderSizeInBytes with hfhd
  have hmul : (a + n) * (fh + fs) = a * (fh + fs) + n * (fh + fs) := Nat.add_mul a n (fh + fs)
  obtain ⟨L, hL, hlen, hk⟩ := readFrames_spec file px py n (fhd + a * (fh + fs))
    (by rw [← hfh, ← hfs]; omega)
  refine ⟨L, ?_, hlen, ?_⟩
  · unfold Frms6Reader.readData
    have hcount : ¬ (((a + n : Nat) : Int) - (a : Int) < 0) := by omega
    have hcast : (fhd : Int) + (a : Int) * ((fh : Int) + (fs : Int))
        = ((fhd + a * (fh + fs) : Nat) : Int) := by
      push_cast
      ring
    have hoff : ¬ ((fhd : Int) + (a : Int) * ((fh : Int) + (fs : Int)) < 0) := by
      rw [hcast]
      omega
    rw [if_neg hcount, if_neg hoff]
    have h1 : (((a + n : Nat) : Int) - (a : Int)).toNat = n := by omega
    have h2 : ((fhd : Int) + (a : Int) * ((fh : Int) + (fs : Int))).toNat
        = fhd + a * (fh + fs) := by
      rw [hcast]
      omega
    rw [h1, h2, hL]
    rfl
  · intro k hkn
    have := hk k hkn
    rw [this]
    unfold payloadBytesAt
    congr 2
    rw [← hfs, ← hfh, ← hfhd]
    ring_nf

/-- On a well-formed file whose header declares geometry `px × py`,
`getDataShape` succeeds with `(px, py, n)`. -/
lemma getDataShape_wellFormed (file : Bytes) (px py n : Nat)
    (hw : wellFormedFrms6 file px py n) (hh : headerDeclares file px py) :
    Frms6Reader.getDataShape file = .ok (px, py, n) := by
  obtain ⟨hwd, hht⟩ := hh
  have hlen : file.length = Frms6Reader.fileHeaderSizeInBytes +
      n * (Frms6Reader.frameHeaderSizeInBytes + Frms6Reader.getFrameSizeInBytes px py) := hw
  have hge : Frms6Reader.fileHeaderSizeInBytes ≤ file.length := by omega
  unfold Frms6Reader.getDataShape Frms6Reader.getFileHeader
  rw [if_pos hge]
  simp only [bind, Except.bind]
  rw [hwd, hht]
  have hsub : file.length - Frms6Reader.fileHeaderSizeInBytes =
      n * (Frms6Reader.frameHeaderSizeInBytes + Frms6Reader.getFrameSizeInBytes px py) := by
    omega
  have hmod : (file.length - Frms6Reader.fileHeaderSizeInBytes) %
      (Frms6Reader.frameHeaderSizeInBytes + Frms6Reader.getFrameSizeInBytes px py) = 0 := by
    rw [hsub]
    exact Nat.mul_mod_left _ _
  have hpos : 0 < Frms6Reader.frameHeaderSizeInBytes + Frms6Reader.getFrameSizeInBytes px py := by
    have := frameHeaderSize_val
    omega
  have hdiv : (file.length - Frms6Reader.fileHeaderSizeInBytes) /
      (Frms6Reader.frameHeaderSizeInBytes + Frms6Reader.getFrameSizeInBytes px py) = n := by
    rw [hsub]
    exact Nat.mul_div_cancel n hpos
  rw [if_neg (by rw [hmod]; exact fun h2 => h2 rfl), hdiv]

/-- Characterization of the frame-header scan loop on a file long enough
for `n` whole records starting at `pos`: it succeeds and its `k`-th entry
is the decode of the 64 header bytes of the `k`-th record. -/
lemma readHeaders_spec (file : Bytes) (fs : Nat) :
    ∀ (n pos : Nat), pos + n * (Frms6Reader.frameHeaderSizeInBytes + fs) ≤ file.length →
      ∃ L, Frms6Reader.readHeadersLoop file fs pos n = .ok L ∧ L.length = n ∧
        ∀ k, k < n → L.getD k (Frms6Reader.decodeFrameHeader []) =
          Frms6Reader.decodeFrameHeader
            ((file.drop (pos + k * (Frms6Reader.frameHeaderSizeInBytes + fs))).take
              Frms6Reader.frameHeaderSizeInBytes) := by
  intro n
  induction n with
  | zero =>
    intro pos _
    exact ⟨[], rfl, rfl, fun k hk => absurd hk (by omega)⟩
  | succ n ih =>
    intro pos h
    set fh := Frms6Reader.frameHeaderSizeInBytes with hfh
    have hsucc : (n + 1) * (fh + fs) = n * (fh + fs) + (fh + fs) := Nat.succ_mul n (fh + fs)
    have hone : pos + fh ≤ file.length := by omega
    have hrest : (pos + fh + fs) + n * (fh + fs) ≤ file.length := by omega
    obtain ⟨L, hL, hlen, hk⟩ := ih (pos + fh + fs) hrest
    refine ⟨Frms6Reader.decodeFrameHeader ((file.drop pos).take fh) :: L, ?_, ?_, ?_⟩
    · rw [Frms6Reader.readHeadersLoop]
      rw [readBytesExact_ok file pos fh (by omega), hL]
      rfl
    · simp [hlen]
    · intro k hkn
      match k with
      | 0 =>
        simp
      | k + 1 =>
        have hk' := hk k (by omega)
        simp only [List.getD_cons_succ]
        rw [hk']
        congr 3
        ring_nf

/-! Claim theorems. -/

/-- C1 (counterexample): the per-frame header layout does not occupy
52 bytes: `frameHeaderSizeInBytes`, the calcsize of `'=BBBBIIIdHHIQ24x'`,
is not 52. -/
theorem claim_C1_counterexample : Frms6Reader.frameHeaderSizeInBytes ≠ 52 := by
  decide

/-- C1 (amended): the per-frame header binary layout occupies exactly
64 bytes: the constant `frameHeaderSizeInBytes` computed from the
`FrameHeader` struct format equals 64
(4·1 + 3·4 + 8 + 2·2 + 4 + 8 + 24 = 64). -/
theorem claim_C1_frame_header_size : Frms6Reader.frameHeaderSizeInBytes = 64 := by
  decide

/-- C8: for all non-negative integers `width` and `height`,
`getFrameSizeInBytes width height` (the calcsize of `width*height`
packed shorts) returns `width * height * 2`. -/
theorem claim_C8_frame_byte_size :
    ∀ w h : Nat, Frms6Reader.getFrameSizeInBytes w h = w * h * 2 :=
  getFrameSize_val

/-- C4 (amended): `readData` performs no explicit range validation and
raises no dedicated invalid-range error; a range with `start` strictly
greater than `end` fails only because `np.zeros` rejects the negative
frame count, while a range with `start = end` or with negative bounds
that keep the start offset non-negative does not fail at all (see the
counterexample). -/
theorem claim_C4_start_gt_end :
    ∀ (file : Bytes) (a b : Int) (px py : Nat), b < a →
      Frms6Reader.readData file a b px py = .error .negativeDimensions := by
  intro file a b px py h
  unfold Frms6Reader.readData
  rw [if_pos (by omega)]

/-- C4 (witness): the spec's own example range `(5, 3)` fails with the
negative-dimension allocation error. -/
theorem claim_C4_witness :
    ((3 : Int) < 5) ∧ Frms6Reader.readData [] 5 3 2 2 = .error .negativeDimensions :=
  ⟨by decide, claim_C4_start_gt_end [] 5 3 2 2 (by decide)⟩

/-- C4 (counterexample): a range with a negative bound does not fail:
on a 1024-byte file, `readData` with `image_range = (-1, 0)` and 2×2
geometry returns a frame silently read from inside the file header. -/
theorem claim_C4_counterexample :
    Frms6Reader.readData (List.replicate 1024 0) (-1) 0 2 2 =
      .ok ⟨2, 2, [[[0, 0], [0, 0]]]⟩ := by
  decide

/-- C9 (amended): for every frame range whose start equals its end and
whose computed byte offset `fileHeaderSize + start * recordSize` is
non-negative (in particular whenever `start ≥ 0`), `readData` with
caller-supplied `pixels_x` and `pixels_y` does not raise: it returns the
empty chunk of shape `(pixels_x, pixels_y, 0)` without reading any frame
bytes.  (For a start negative enough to make the offset negative the
seek raises instead; see the counterexample.) -/
theorem claim_C9_empty_range :
    ∀ (file : Bytes) (a : Int) (px py : Nat),
      0 ≤ (Frms6Reader.fileHeaderSizeInBytes : Int) +
        a * ((Frms6Reader.frameHeaderSizeInBytes : Int) +
          (Frms6Reader.getFrameSizeInBytes px py : Int)) →
      Frms6Reader.readData file a a px py = .ok ⟨px, py, []⟩ := by
  intro file a px py h
  unfold Frms6Reader.readData
  rw [if_neg (by omega), if_neg (by omega)]
  have h0 : a - a = 0 := by omega
  rw [h0]
  rfl

/-- C9 (witness): the empty range `(0, 0)` on any file returns the empty
2×2 chunk. -/
theorem claim_C9_witness :
    (0 ≤ (Frms6Reader.fileHeaderSizeInBytes : Int) +
      0 * ((Frms6Reader.frameHeaderSizeInBytes : Int) +
        (Frms6Reader.getFrameSizeInBytes 2 2 : Int))) ∧
    Frms6Reader.readData [] 0 0 2 2 = .ok ⟨2, 2, []⟩ :=
  ⟨by decide, claim_C9_empty_range [] 0 2 2 (by decide)⟩

/-- C9 (counterexample): an empty range with a sufficiently negative
start raises: `image_range = (-100, -100)` with 2×2 geometry makes the
start offset `1024 - 100 * 72` negative, and the seek fails before the
(empty) loop is reached. -/
theorem claim_C9_counterexample :
    Frms6Reader.readData (List.replicate 1100 0) (-100) (-100) 2 2 =
      .error .negativeSeek := by
  decide

/-- C2: for every frame read by `readData` on an in-bounds range with
caller-supplied geometry, the flat uint16 samples of that frame's
payload are reshaped row-major into `(height, width)` and transposed to
`(width, height)` before being stored at the frame's position along the
third axis (here: the outermost list index of `frames`); and on the
spec's example — width 2, height 2, raw samples `[1,2,3,4]` and
`[5,6,7,8]` — the per-frame arrays are `[[1,3],[2,4]]` and
`[[5,7],[6,8]]` in (x, y) order. -/
theorem claim_C2_reshape_transpose :
    (∀ (file : Bytes) (px py a n : Nat),
      Frms6Reader.fileHeaderSizeInBytes +
        (a + n) * (Frms6Reader.frameHeaderSizeInBytes + Frms6Reader.getFrameSizeInBytes px py)
        ≤ file.length →
      ∃ L, Frms6Reader.readData file (a : Int) ((a + n : Nat) : Int) px py = .ok ⟨px, py, L⟩ ∧
        L.length = n ∧
        ∀ k, k < n → L.getD k [] =
          Frms6Reader.transposeMat py px
            (Frms6Reader.reshapeRows py px
              (Frms6Reader.readU16 (payloadBytesAt file px py (a + k))))) ∧
    Frms6Reader.readData exampleFile2x2 0 2 2 2 =
      .ok ⟨2, 2, [[[1, 3], [2, 4]], [[5, 7], [6, 8]]]⟩ := by
  constructor
  · intro file px py a n h
    obtain ⟨L, hok, hlen, hk⟩ := readData_spec file px py a n h
    exact ⟨L, hok, hlen, fun k hkn => hk k hkn⟩
  · decide

/-- C2 (witness): the general statement applied to the spec's example
file over the full range `[0, 2)`. -/
theorem claim_C2_witness :
    (Frms6Reader.fileHeaderSizeInBytes +
      (0 + 2) * (Frms6Reader.frameHeaderSizeInBytes + Frms6Reader.getFrameSizeInBytes 2 2)
      ≤ exampleFile2x2.length) ∧
    (∃ L, Frms6Reader.readData exampleFile2x2 ((0 : Nat) : Int) ((0 + 2 : Nat) : Int) 2 2
        = .ok ⟨2, 2, L⟩ ∧
      L.length = 2 ∧
      ∀ k, k < 2 → L.getD k [] =
        Frms6Reader.transposeMat 2 2
          (Frms6Reader.reshapeRows 2 2
            (Frms6Reader.readU16 (payloadBytesAt exampleFile2x2 2 2 (0 + k))))) :=
  ⟨by decide, claim_C2_reshape_transpose.1 exampleFile2x2 2 2 0 2 (by decide)⟩

/-- C5: on a well-formed file with `N` frames, for all `a ≤ b ≤ N`,
`readData` over `[a, b)` equals the slice — along the third (frame)
axis, i.e. `drop`/`take` on the outermost `frames` list — of `readData`
over `[0, N)` with the same width and height. -/
theorem claim_C5_subrange_slice :
    ∀ (file : Bytes) (px py N a b : Nat), a ≤ b → b ≤ N →
      wellFormedFrms6 file px py N →
      ∃ sub full,
        Frms6Reader.readData file (a : Int) (b : Int) px py = .ok sub ∧
        Frms6Reader.readData file (0 : Int) (N : Int) px py = .ok full ∧
        sub = ⟨px, py, (full.frames.drop a).take (b - a)⟩ := by
  intro file px py N a b hab hbN hw
  have hlen : file.length = Frms6Reader.fileHeaderSizeInBytes +
      N * (Frms6Reader.frameHeaderSizeInBytes + Frms6Reader.getFrameSizeInBytes px py) := hw
  have hmono : ∀ m : Nat, m ≤ N →
      Frms6Reader.fileHeaderSizeInBytes +
        m * (Frms6Reader.frameHeaderSizeInBytes + Frms6Reader.getFrameSizeInBytes px py)
        ≤ file.length := by
    intro m hm
    have := Nat.mul_le_mul_right
      (Frms6Reader.frameHeaderSizeInBytes + Frms6Reader.getFrameSizeInBytes px py) hm
    omega
  obtain ⟨F, hFok, hFlen, hFk⟩ := readData_spec file px py 0 N (by
    have := hmono N (le_refl N)
    simpa using this)
  obtain ⟨S, hSok, hSlen, hSk⟩ := readData_spec file px py a (b - a) (by
    have hba : a + (b - a) = b := by omega
    rw [hba]
    exact hmono b hbN)
  have hba : a + (b - a) = b := by omega
  rw [hba] at hSok
  have hz : ((0 + N : Nat) : Int) = ((N : Nat) : Int) := by
    norm_num
  rw [hz] at hFok
  have hz2 : ((0 : Nat) : Int) = (0 : Int) := by norm_num
  rw [hz2] at hFok
  refine ⟨⟨px, py, S⟩, ⟨px, py, F⟩, hSok, hFok, ?_⟩
  have hS_eq : S = (F.drop a).take (b - a) := by
    apply List.ext_getElem
    · rw [hSlen, List.length_take, List.length_drop, hFlen]
      omega
    · intro i h1 h2
      have hiba : i < b - a := by rw [hSlen] at h1; exact h1
      have hS := hSk i hiba
      rw [List.getD_eq_getElem _ _ h1] at hS
      have hFi : a + i < F.length := by rw [hFlen]; omega
      have hF := hFk (a + i) (by omega)
      rw [List.getD_eq_getElem _ _ hFi] at hF
      rw [hS]
      rw [List.getElem_take, List.getElem_drop]
      rw [hF]
      simp
  rw [hS_eq]

/-- C5 (witness): the sub-range `[1, 2)` of the example file equals the
corresponding slice of the full range `[0, 2)`. -/
theorem claim_C5_witness :
    (1 ≤ 2 ∧ 2 ≤ 2 ∧ wellFormedFrms6 exampleFile2x2 2 2 2) ∧
    (∃ sub full,
      Frms6Reader.readData exampleFile2x2 ((1 : Nat) : Int) ((2 : Nat) : Int) 2 2 = .ok sub ∧
      Frms6Reader.readData exampleFile2x2 (0 : Int) ((2 : Nat) : Int) 2 2 = .ok full ∧
      sub = ⟨2, 2, (full.frames.drop 1).take (2 - 1)⟩) :=
  ⟨⟨by decide, by decide, by decide⟩,
    claim_C5_subrange_slice exampleFile2x2 2 2 2 1 2 (by decide) (by decide) (by decide)⟩

/-- C3: `getDataShape` computes
`frameCount = (fileSize - fileHeaderByteSize) / recordSize` and fails
with the corrupt-file error whenever the header is decodable (the file
has at least the 1024 header bytes) and that division is not exact; in
particular a valid file with at least one frame truncated by its last
byte fails so.  (A zero-frame valid file — 1024 bytes — truncated by one
byte fails with the malformed-header error instead; see the
counterexample.) -/
theorem claim_C3_inexact_division :
    (∀ file : Bytes, Frms6Reader.fileHeaderSizeInBytes ≤ file.length →
      (file.length - Frms6Reader.fileHeaderSizeInBytes) % recordSizeOf file ≠ 0 →
      Frms6Reader.getDataShape file = .error .corruptFile) ∧
    (∀ (file : Bytes) (px py N : Nat), 1 ≤ N →
      wellFormedFrms6 file px py N → headerDeclares file px py →
      Frms6Reader.getDataShape file.dropLast = .error .corruptFile) := by
  have part1 : ∀ file : Bytes, Frms6Reader.fileHeaderSizeInBytes ≤ file.length →
      (file.length - Frms6Reader.fileHeaderSizeInBytes) % recordSizeOf file ≠ 0 →
      Frms6Reader.getDataShape file = .error .corruptFile := by
    intro file hge hmod
    unfold recordSizeOf at hmod
    unfold Frms6Reader.getDataShape Frms6Reader.getFileHeader
    rw [if_pos hge]
    simp only [bind, Except.bind]
    rw [if_pos hmod]
  refine ⟨part1, ?_⟩
  intro file px py N hN hw hh
  obtain ⟨hwd, hht⟩ := hh
  have hfh64 := frameHeaderSize_val
  have hlen : file.length = Frms6Reader.fileHeaderSizeInBytes +
      N * (Frms6Reader.frameHeaderSizeInBytes + Frms6Reader.getFrameSizeInBytes px py) := hw
  set rs := Frms6Reader.frameHeaderSizeInBytes + Frms6Reader.getFrameSizeInBytes px py with hrs
  have hrs_ge : 64 ≤ rs := by omega
  have hN_ge : rs ≤ N * rs := Nat.le_mul_of_pos_left rs (by omega)
  have hge' : Frms6Reader.fileHeaderSizeInBytes ≤ file.dropLast.length := by
    rw [List.length_dropLast]
    rw [fileHeaderSize_val] at hlen ⊢
    omega
  have htake : file.dropLast.take Frms6Reader.fileHeaderSizeInBytes =
      file.take Frms6Reader.fileHeaderSizeInBytes := by
    rw [List.dropLast_eq_take, List.take_take]
    congr 1
    rw [List.length_dropLast] at hge'
    omega
  apply part1 file.dropLast hge'
  have hrec : recordSizeOf file.dropLast = rs := by
    unfold recordSizeOf
    rw [htake, hwd, hht]
  rw [hrec, List.length_dropLast]
  obtain ⟨m, rfl⟩ : ∃ m, N = m + 1 := ⟨N - 1, by omega⟩
  have hmul : (m + 1) * rs = m * rs + rs := Nat.succ_mul m rs
  have hsub : file.length - 1 - Frms6Reader.fileHeaderSizeInBytes = (rs - 1) + m * rs := by
    omega
  rw [hsub, Nat.add_mul_mod_self_right, Nat.mod_eq_of_lt (by omega)]
  omega

/-- C3 (witness): the one-frame valid file of geometry 1×1 truncated by
one byte fails with the corrupt-file error. -/
theorem claim_C3_witness :
    (1 ≤ 1 ∧ wellFormedFrms6 exampleFile1x1 1 1 1 ∧ headerDeclares exampleFile1x1 1 1) ∧
    Frms6Reader.getDataShape exampleFile1x1.dropLast = .error .corruptFile :=
  ⟨⟨by decide, by decide, by decide⟩,
    claim_C3_inexact_division.2 exampleFile1x1 1 1 1 (by decide) (by decide) (by decide)⟩

/-- C3 (counterexample): not every file one byte shorter than a valid
frms6 file fails with the corrupt-file error.  The 1024-byte all-zero
file is valid (its shape resolves to width 0, height 0, zero frames),
yet truncated by one byte it fails with the malformed-header error
(`struct.error`), not the corrupt-file one, because the frame-count
division is never reached. -/
theorem claim_C3_counterexample :
    Frms6Reader.getDataShape (List.replicate 1024 0) = .ok (0, 0, 0) ∧
    Frms6Reader.getDataShape (List.replicate 1023 0) = .error .malformedHeader ∧
    Frms6Reader.getDataShape (List.replicate 1023 0) ≠ .error .corruptFile := by
  refine ⟨by decide, by decide, by decide⟩

/-- C6: on a valid frms6 file, `getFrameHeaders` succeeds; each of the
nine field lists has exactly `frameCount` entries (the count computed by
`getDataShape`), and the `k`-th entry of each list is the corresponding
unpack item of the `k`-th frame header in file order (`maxHeight`
collects unpack item 8, the header's `the_start` field).  The scan
performs exactly `frameCount` iterations; success of every 64-byte
header read entails that no read goes past the last frame. -/
theorem claim_C6_header_scan :
    ∀ (file : Bytes) (px py N : Nat),
      wellFormedFrms6 file px py N → headerDeclares file px py →
      ∃ r, Frms6Reader.getFrameHeaders file = .ok r ∧
        (r.start.length = N ∧ r.info.length = N ∧ r.id.length = N ∧
          r.height.length = N ∧ r.tv_sec.length = N ∧ r.tv_usec.length = N ∧
          r.index.length = N ∧ r.temp.length = N ∧ r.maxHeight.length = N) ∧
        ∀ k, k < N →
          r.start.getD k 0 =
            (Frms6Reader.decodeFrameHeader (headerBytesAt file px py k)).start ∧
          r.info.getD k 0 =
            (Frms6Reader.decodeFrameHeader (headerBytesAt file px py k)).info ∧
          r.id.getD k 0 =
            (Frms6Reader.decodeFrameHeader (headerBytesAt file px py k)).id ∧
          r.height.getD k 0 =
            (Frms6Reader.decodeFrameHeader (headerBytesAt file px py k)).height ∧
          r.tv_sec.getD k 0 =
            (Frms6Reader.decodeFrameHeader (headerBytesAt file px py k)).tv_sec ∧
          r.tv_usec.getD k 0 =
            (Frms6Reader.decodeFrameHeader (headerBytesAt file px py k)).tv_usec ∧
          r.index.getD k 0 =
            (Frms6Reader.decodeFrameHeader (headerBytesAt file px py k)).index ∧
          r.temp.getD k 0 =
            (Frms6Reader.decodeFrameHeader (headerBytesAt file px py k)).temp ∧
          r.maxHeight.getD k 0 =
            (Frms6Reader.decodeFrameHeader (headerBytesAt file px py k)).the_start := by
  intro file px py N hw hh
  have hshape := getDataShape_wellFormed file px py N hw hh
  have hswap : Frms6Reader.getFrameSizeInBytes py px = Frms6Reader.getFrameSizeInBytes px py := by
    rw [getFrameSize_val, getFrameSize_val]
    ring
  have hlen : file.length = Frms6Reader.fileHeaderSizeInBytes +
      N * (Frms6Reader.frameHeaderSizeInBytes + Frms6Reader.getFrameSizeInBytes px py) := hw
  obtain ⟨L, hL, hLlen, hLk⟩ := readHeaders_spec file (Frms6Reader.getFrameSizeInBytes px py) N
    Frms6Reader.fileHeaderSizeInBytes (by omega)
  refine ⟨⟨L.map (fun h => h.start), L.map (fun h => h.info), L.map (fun h => h.id),
    L.map (fun h => h.height), L.map (fun h => h.tv_sec), L.map (fun h => h.tv_usec),
    L.map (fun h => h.index), L.map (fun h => h.temp), L.map (fun h => h.the_start)⟩,
    ?_, ?_, ?_⟩
  · unfold Frms6Reader.getFrameHeaders
    rw [hshape]
    simp only [bind, Except.bind]
    rw [hswap, hL]
  · simp [hLlen]
  · intro k hk
    have hkL : k < L.length := by omega
    have hdr := hLk k hk
    rw [List.getD_eq_getElem _ _ hkL] at hdr
    unfold headerBytesAt
    refine ⟨?_, ?_, ?_, ?_, ?_, ?_, ?_, ?_, ?_⟩
    all_goals rw [List.getD_eq_getElem _ _ (by simpa [hLlen] using hk), List.getElem_map, hdr]

/-- C6 (witness): the scan of the one-frame example file. -/
theorem claim_C6_witness :
    (wellFormedFrms6 exampleFile1x1 1 1 1 ∧ headerDeclares exampleFile1x1 1 1) ∧
    (∃ r, Frms6Reader.getFrameHeaders exampleFile1x1 = .ok r ∧
      (r.start.length = 1 ∧ r.info.length = 1 ∧ r.id.length = 1 ∧
        r.height.length = 1 ∧ r.tv_sec.length = 1 ∧ r.tv_usec.length = 1 ∧
        r.index.length = 1 ∧ r.temp.length = 1 ∧ r.maxHeight.length = 1) ∧
      ∀ k, k < 1 →
        r.start.getD k 0 =
          (Frms6Reader.decodeFrameHeader (headerBytesAt exampleFile1x1 1 1 k)).start ∧
        r.info.getD k 0 =
          (Frms6Reader.decodeFrameHeader (headerBytesAt exampleFile1x1 1 1 k)).info ∧
        r.id.getD k 0 =
          (Frms6Reader.decodeFrameHeader (headerBytesAt exampleFile1x1 1 1 k)).id ∧
        r.height.getD k 0 =
          (Frms6Reader.decodeFrameHeader (headerBytesAt exampleFile1x1 1 1 k)).height ∧
        r.tv_sec.getD k 0 =
          (Frms6Reader.decodeFrameHeader (headerBytesAt exampleFile1x1 1 1 k)).tv_sec ∧
        r.tv_usec.getD k 0 =
          (Frms6Reader.decodeFrameHeader (headerBytesAt exampleFile1x1 1 1 k)).tv_usec ∧
        r.index.getD k 0 =
          (Frms6Reader.decodeFrameHeader (headerBytesAt exampleFile1x1 1 1 k)).index ∧
        r.temp.getD k 0 =
          (Frms6Reader.decodeFrameHeader (headerBytesAt exampleFile1x1 1 1 k)).temp ∧
        r.maxHeight.getD k 0 =
          (Frms6Reader.decodeFrameHeader (headerBytesAt exampleFile1x1 1 1 k)).the_start) :=
  ⟨⟨by decide, by decide⟩, claim_C6_header_scan exampleFile1x1 1 1 1 (by decide) (by decide)⟩

/-- Every branch of the module-level reader either returns
`npAsFloat64` of some array or raises the mixed-range `TypeError`. -/
lemma readDataContainer_cases (files : List Char → H5File) (filename path : List Char)
    (ir xr yr : Option (Int × Int)) (sim : Bool) :
    (∃ X, readDataContainer files filename path ir xr yr sim = .ok (npAsFloat64 X)) ∨
    readDataContainer files filename path ir xr yr sim = .error .typeError := by
  rcases xr with _ | ⟨x0, x1⟩ <;> rcases yr with _ | ⟨y0, y1⟩
  · exact .inl ⟨_, rfl⟩
  · exact .inr rfl
  · exact .inr rfl
  · exact .inl ⟨_, rfl⟩

/-- C7: whenever the module-level `readData` returns, the returned array
is 64-bit floating point, for every combination of options and every
on-disk storage dtype of the dataset: every return path ends in
`np.asarray(d, np.float64)`.  (Supplying exactly one of `x_range` /
`y_range` raises a `TypeError` instead of returning, so the conclusion
is conditional on a value being returned.) -/
theorem claim_C7_always_float64 :
    ∀ (files : List Char → H5File) (filename path : List Char)
      (imageRange xRange yRange : Option (Int × Int)) (simulated : Bool) (res : NDArr),
      readDataContainer files filename path imageRange xRange yRange simulated = .ok res →
      res.dtype = .float64 := by
  intro files filename path imageRange xRange yRange simulated res h
  rcases readDataContainer_cases files filename path imageRange xRange yRange simulated with
    ⟨X, hX⟩ | hE
  · rw [hX] at h
    rw [← Except.ok.inj h]
    rfl
  · rw [hE] at h
    exact Except.noConfusion h

/-- C7 (witness): a uint16-stored single-element dataset read with no
options comes back retagged float64. -/
theorem claim_C7_witness :
    readDataContainer (fun _ => ⟨fun _ => ⟨.uint16, [1, 1, 1], [7]⟩⟩) ['a'] ['p']
        none none none false = .ok ⟨.float64, [1, 1, 1], [7]⟩ ∧
    (⟨.float64, [1, 1, 1], [7]⟩ : NDArr).dtype = .float64 :=
  ⟨by rfl,
    claim_C7_always_float64 (fun _ => ⟨fun _ => ⟨.uint16, [1, 1, 1], [7]⟩⟩) ['a'] ['p']
      none none none false ⟨.float64, [1, 1, 1], [7]⟩ (by rfl)⟩

/-- Boolean prefix test agrees with `List.IsPrefix`. -/
lemma isPrefixCh_iff (p : List Char) : ∀ l, isPrefixCh p l = true ↔ p <+: l := by
  induction p with
  | nil =>
    intro l
    show true = true ↔ [] <+: l
    simp [ List.nil_prefix]
  | cons a as ih =>
    intro l
    cases l with
    | nil =>
      show false = true ↔ a :: as <+: []
      simp [List.prefix_nil]
    | cons b bs =>
      show (a == b && isPrefixCh as bs) = true ↔ a :: as <+: b :: bs
      rw [Bool.and_eq_true, beq_iff_eq, ih bs, List.cons_prefix_cons]

/-- The code's substring test (`find != -1`) agrees with infix
occurrence. -/
lemma containsZeros5_iff (l : List Char) : containsZeros5 l = true ↔ zeros5 <:+: l := by
  induction l with
  | nil =>
    constructor
    · intro h
      simp [containsZeros5] at h
    · intro h
      have := List.eq_nil_of_infix_nil h
      simp [zeros5] at this
  | cons c t ih =>
    rw [containsZeros5, Bool.or_eq_true, isPrefixCh_iff, ih, List.infix_cons_iff]

/-- A run of zero characters at the head of `pyReplace00000 t` was
already at the head of `t`: each step of the replacement either emits
`'%'` (no zero run) or copies the head character. -/
lemma prefix_zeros_pyReplace : ∀ (t : List Char) (k : Nat),
    isPrefixCh (List.replicate k '0') (pyReplace00000 t) = true →
    isPrefixCh (List.replicate k '0') t = true := by
  intro t
  induction t with
  | nil =>
    intro k h
    simpa [pyReplace00000] using h
  | cons c t ih =>
    intro k h
    rw [pyReplace00000] at h
    by_cases hp : isPrefixCh zeros5 (c :: t) = true
    · rw [if_pos hp] at h
      cases k with
      | zero => rfl
      | succ j => simp [List.replicate_succ, isPrefixCh, pct05d] at h
    · rw [if_neg hp] at h
      cases k with
      | zero => rfl
      | succ j =>
        rw [List.replicate_succ] at h ⊢
        rw [isPrefixCh, Bool.and_eq_true] at h ⊢
        exact ⟨h.1, ih j h.2⟩

/-- No occurrence of `"00000"` survives the replacement. -/
lemma contains_pyReplace_eq_false : ∀ (n : Nat) (l : List Char), l.length ≤ n →
    containsZeros5 (pyReplace00000 l) = false := by
  intro n
  induction n with
  | zero =>
    intro l hl
    have hnil : l = [] := List.length_eq_zero.mp (by omega)
    subst hnil
    rw [pyReplace00000]
    rfl
  | succ n ih =>
    intro l hl
    cases l with
    | nil =>
      rw [pyReplace00000]
      rfl
    | cons c t =>
      rw [pyReplace00000]
      by_cases hp : isPrefixCh zeros5 (c :: t) = true
      · rw [if_pos hp]
        have hrec : containsZeros5 (pyReplace00000 (t.drop 4)) = false := by
          apply ih
          simp only [List.length_drop]
          simp only [List.length_cons] at hl
          omega
        simp [pct05d, containsZeros5, isPrefixCh, zeros5, hrec]
      · rw [if_neg hp]
        have hrec : containsZeros5 (pyReplace00000 t) = false := by
          apply ih
          simp only [List.length_cons] at hl
          omega
        rw [containsZeros5, hrec, Bool.or_false]
        by_contra hcc
        have htrue : isPrefixCh zeros5 (c :: pyReplace00000 t) = true := by
          cases hb : isPrefixCh zeros5 (c :: pyReplace00000 t) <;> simp_all
        have hz : zeros5 = '0' :: List.replicate 4 '0' := rfl
        rw [hz, isPrefixCh, Bool.and_eq_true] at htrue
        obtain ⟨hc0, hrest⟩ := htrue
        have hpre_t : isPrefixCh (List.replicate 4 '0') t = true :=
          prefix_zeros_pyReplace t 4 hrest
        apply hp
        rw [hz, isPrefixCh, Bool.and_eq_true]
        exact ⟨hc0, hpre_t⟩

/-- When the literal occurs, the replacement output contains the
placeholder `"%05d"`. -/
lemma pct_infix_pyReplace : ∀ l : List Char, containsZeros5 l = true →
    pct05d <:+: pyReplace00000 l := by
  intro l
  induction l with
  | nil =>
    intro h
    simp [containsZeros5] at h
  | cons c t ih =>
    intro h
    rw [pyReplace00000]
    by_cases hp : isPrefixCh zeros5 (c :: t) = true
    · rw [if_pos hp]
      exact ⟨[], pyReplace00000 ((c :: t).drop 5), by simp⟩
    · rw [if_neg hp]
      rw [containsZeros5, Bool.or_eq_true] at h
      cases h with
      | inl h1 => exact absurd h1 hp
      | inr h2 => exact List.infix_cons (ih h2)

/-- C10: the container readers (`readDataContainer` and `getDataSize`
both branch on `containsZeros5 filename` and open
`pyReplace00000 filename` in family mode) select the multi-part family
addressing mode iff the literal `"00000"` occurs anywhere in the
supplied path string; and in that mode the replacement substitutes the
placeholder `"%05d"` for the occurrences: none survives in the
resulting pattern, and the placeholder occurs in it. -/
theorem claim_C10_family_mode :
    ∀ filename : List Char,
      (containsZeros5 filename = true ↔ zeros5 <:+: filename) ∧
      containsZeros5 (pyReplace00000 filename) = false ∧
      (containsZeros5 filename = true → pct05d <:+: pyReplace00000 filename) :=
  fun filename =>
    ⟨containsZeros5_iff filename,
      contains_pyReplace_eq_false filename.length filename (le_refl _),
      pct_infix_pyReplace filename⟩

/-- C10 (witness): the filename `"a00000b"`. -/
theorem claim_C10_witness :
    containsZeros5 ['a', '0', '0', '0', '0', '0', 'b'] = true ∧
    zeros5 <:+: ['a', '0', '0', '0', '0', '0', 'b'] ∧
    containsZeros5 (pyReplace00000 ['a', '0', '0', '0', '0', '0', 'b']) = false ∧
    pct05d <:+: pyReplace00000 ['a', '0', '0', '0', '0', '0', 'b'] :=
  ⟨by decide,
    (claim_C10_family_mode ['a', '0', '0', '0', '0', '0', 'b']).1.mp (by decide),
    (claim_C10_family_mode ['a', '0', '0', '0', '0', '0', 'b']).2.1,
    (claim_C10_family_mode ['a', '0', '0', '0', '0', '0', 'b']).2.2 (by decide)⟩
end PnCCD
